import Mathlib

/-!
Verification of the batch-processing pipeline shared by the Excel image
downloader (image_link_downloader/main.py) and the bulk image format
converter (bulk_image_extension_converter/ex.py).

The embedding is shallow: each Python function is translated to an
executable Lean function over explicit state. The filesystem is an
association list from paths to byte contents; the network fetch and the
image codec are oracle parameters, so that theorems quantify over every
possible behaviour of the external collaborators. String manipulation is
modelled on character lists so that every definition evaluates inside the
kernel.
-/

/-- ASCII lower-casing of one character, as Python str.lower does on ASCII. -/
def asciiLower (c : Char) : Char :=
  if 'A' ≤ c ∧ c ≤ 'Z' then Char.ofNat (c.toNat + 32) else c

/-- ASCII upper-casing of one character, as Python str.upper does on ASCII. -/
def asciiUpper (c : Char) : Char :=
  if 'a' ≤ c ∧ c ≤ 'z' then Char.ofNat (c.toNat - 32) else c

/-- Lower-case a string (ASCII), modelling Python str.lower. -/
def strLower (s : String) : String := String.mk (s.data.map asciiLower)

/-- Upper-case a string (ASCII), modelling Python str.upper. -/
def strUpper (s : String) : String := String.mk (s.data.map asciiUpper)

/-- Substring containment on character lists, modelling the Python
expression pat in target. -/
def containsSub (pat : List Char) : List Char → Bool
  | [] => pat.isEmpty
  | c :: t => pat.isPrefixOf (c :: t) || containsSub pat t

/-- Substring containment on strings. -/
def strContainsSub (hay pat : String) : Bool := containsSub pat.data hay.data

/-- Suffix test on strings, modelling Python str.endswith. -/
def strEndsWith (s suffix : String) : Bool := suffix.data.isSuffixOf s.data

/-- The part of a character list before the first occurrence of c,
modelling s.split(c)[0]. -/
def beforeFirst (c : Char) (l : List Char) : List Char :=
  l.takeWhile (fun x => x != c)

/-- The part of a character list after the last occurrence of c,
modelling os.path.basename when c is the path separator. -/
def afterLast (c : Char) (l : List Char) : List Char :=
  (l.reverse.takeWhile (fun x => x != c)).reverse

/-- The path component of a URL, modelling urllib.parse.urlparse(url).path
for ordinary scheme://host/path URLs: the fragment and the query are cut
off, then the scheme up to the first colon, then the network location up
to the next slash. -/
def urlPath (url : String) : String :=
  let cs := beforeFirst '?' (beforeFirst '#' url.data)
  let cs1 := if cs.contains ':' then (cs.dropWhile (fun c => c != ':')).drop 1 else cs
  let cs2 := if ['/', '/'].isPrefixOf cs1 then (cs1.drop 2).dropWhile (fun c => c != '/') else cs1
  String.mk cs2

/-- The extension of a file name including the dot, modelling
os.path.splitext(name)[1]: the part from the last dot, except when every
character before that dot is itself a dot. -/
def extChars (cs : List Char) : List Char :=
  let tail := cs.reverse.takeWhile (fun x => x != '.')
  if tail.length = cs.length then []
  else if (cs.take (cs.length - tail.length - 1)).all (fun x => x == '.') then []
  else '.' :: tail.reverse

/-- The file name without its extension, modelling pathlib.PurePath.stem
on a bare file name. -/
def stemChars (cs : List Char) : List Char :=
  cs.take (cs.length - (extChars cs).length)

/-- The filesystem: an association list from paths to byte contents.
A later write shadows earlier entries. -/
abbrev FS := List (String × List Nat)

/-- Read a file: the content at the first (most recent) binding of the path. -/
def fsRead (fs : FS) (p : String) : Option (List Nat) :=
  (fs.find? (fun e => e.1 == p)).map (fun e => e.2)

/-- Existence test, modelling os.path.exists. -/
def fsExists (fs : FS) (p : String) : Bool := (fsRead fs p).isSome

/-- Write a file (create or overwrite). -/
def fsWrite (fs : FS) (p : String) (c : List Nat) : FS := (p, c) :: fs

/-- The observable part of an HTTP response in the downloader model: the
content-type header, the sequence of body chunks yielded by iter_content,
and an optional error raised by the body stream after those chunks. -/
structure FetchResp where
  contentType : String
  chunks : List (List Nat)
  streamError : Option String
deriving DecidableEq

/-- Result of requests.get plus raise_for_status: either a response or a
raised exception carrying its message string. -/
inductive FetchResult where
  | ok : FetchResp → FetchResult
  | err : String → FetchResult
deriving DecidableEq

/-- The per-item result dictionary built by download_image:
keys index, url, filename, status, error. -/
structure Outcome where
  index : Nat
  url : String
  filename : String
  status : String
  error : Option String
deriving DecidableEq

/-- One row of the loaded dataframe restricted to its non-null cells,
as a list of column-name/value pairs. -/
abbrev Row := List (String × String)

namespace ExcelImageDownloader

/-- The characters kept by the sanitising filter in get_filename. -/
def safeChars : List Char :=
  ("abcdefghijklmnopqrstuvwxyzABCDEFGHIJKLMNOPQRSTUVWXYZ0123456789-_.").data

/-- The column names probed in order by get_filename for a meaningful name. -/
def candidateCols : List String := ["id", "name", "title", "product_id"]

/-- Embedding of ExcelImageDownloader.get_filename: basename of the URL
path; fall back to image_INDEX when empty or without a dot, append .jpg
when still without a dot; cut at the first question mark; when a row is
available and has one of the candidate columns, rename to that value
(slashes replaced by underscores) plus the previous extension or .jpg;
finally keep only safe characters. -/
def getFilename (url : String) (index : Nat) (row : Option Row) : String :=
  let fn0 := afterLast '/' (urlPath url).data
  let fn1 := if fn0.isEmpty || !(fn0.contains '.') then ("image_" ++ toString index).data else fn0
  let fn2 := if !(fn1.contains '.') then fn1 ++ (".jpg").data else fn1
  let fn3 := beforeFirst '?' fn2
  let fn4 := match row with
    | none => fn3
    | some r =>
      match (candidateCols.filterMap (fun c => r.find? (fun kv : String × String => kv.1 == c))).head? with
      | none => fn3
      | some (_, v) =>
        let safeName := v.data.map (fun ch => if ch == '/' || ch == '\\' then '_' else ch)
        let ext := extChars fn3
        safeName ++ (if ext.isEmpty then (".jpg").data else ext)
  String.mk (fn4.filter (fun c => safeChars.contains c))

/-- Embedding of ExcelImageDownloader.download_image. The request and the
body stream are given by the fetch oracle. Returns the outcome record,
the filesystem after the call, and the number of network requests made.
Branches, in source order: skip when the target exists; a raised request
error is caught and recorded as failed; a response whose content-type
does not contain image is recorded as failed without writing; otherwise
the received chunks are written to the target and the record is success,
except that an error raised by the body stream mid-transfer is caught and
recorded as failed after the chunks received so far were written. -/
def downloadImage (outputDir : String) (fetch : String → FetchResult) (fs : FS)
    (url filename : String) (index : Nat) : Outcome × FS × Nat :=
  let filepath := outputDir ++ "/" ++ filename
  if fsExists fs filepath then
    (⟨index, url, filename, "skipped", none⟩, fs, 0)
  else
    match fetch url with
    | .err msg => (⟨index, url, filename, "failed", some msg⟩, fs, 1)
    | .ok resp =>
      if strContainsSub resp.contentType "image" then
        let fs' := fsWrite fs (outputDir ++ "/" ++ filename) resp.chunks.flatten
        match resp.streamError with
        | some msg => (⟨index, url, filename, "failed", some msg⟩, fs', 1)
        | none => (⟨index, url, filename, "success", none⟩, fs', 1)
      else
        (⟨index, url, filename, "failed", some "Not an image"⟩, fs, 1)

/-- One prepared task of download_all_images: url, computed filename, index. -/
structure Task where
  url : String
  filename : String
  index : Nat
deriving DecidableEq

/-- Embedding of the task-preparation loop of download_all_images: one
task per URL in enumeration order, with the filename computed by
get_filename from the URL, the index, and the matching dataframe row. -/
def prepareTasks (rowOf : String → Option Row) (urls : List String) : List Task :=
  urls.enum.map (fun p => ⟨p.2, getFilename p.2 p.1 (rowOf p.2), p.1⟩)

/-- Linearisation of the worker pool: the Executor runs once per task and
every result is collected, threading the shared filesystem through the
calls. The thread pool of the source submits each task exactly once and
as_completed yields each future exactly once, so the collected result
list has one outcome per task. -/
def runTasks (outputDir : String) (fetch : String → FetchResult) :
    List Task → FS → List Outcome × FS
  | [], fs => ([], fs)
  | t :: rest, fs =>
    let r := downloadImage outputDir fetch fs t.url t.filename t.index
    let rr := runTasks outputDir fetch rest r.2.1
    (r.1 :: rr.1, rr.2)

/-- The summary counts computed by generate_report. -/
structure RunSummary where
  total : Nat
  success : Nat
  failed : Nat
  skipped : Nat
deriving DecidableEq

/-- Embedding of ExcelImageDownloader.generate_report. -/
def generateReport (results : List Outcome) : RunSummary :=
  ⟨results.length,
   results.countP (fun r => r.status == "success"),
   results.countP (fun r => r.status == "failed"),
   results.countP (fun r => r.status == "skipped")⟩

/-- Column order of the retry CSV written by save_failed_downloads: the
keys of the per-item result dictionaries. -/
def csvHeader : List String := ["index", "url", "filename", "status", "error"]

/-- One CSV row for a failed outcome; a missing error renders as the
empty cell, as pandas does for None. -/
def outcomeRow (r : Outcome) : List String :=
  [toString r.index, r.url, r.filename, r.status, r.error.getD ""]

/-- Embedding of ExcelImageDownloader.save_failed_downloads: the CSV
artifact as header plus one row per failed record, in list order. -/
def saveFailedDownloads (failed : List Outcome) : List String × List (List String) :=
  (csvHeader, failed.map outcomeRow)

/-- Extract one named column from a CSV artifact. -/
def csvColumn (csv : List String × List (List String)) (col : String) : List String :=
  match csv.1.enum.find? (fun p => p.2 == col) with
  | none => []
  | some p => csv.2.map (fun row => row.getD p.1 "")

/-- Everything download_all_images produces: the collected outcome list,
the printed summary, the retry CSV (present exactly when some item
failed), and the final filesystem. -/
structure RunReport where
  results : List Outcome
  summary : RunSummary
  retryCsv : Option (List String × List (List String))
  fs : FS

/-- Embedding of ExcelImageDownloader.download_all_images: prepare the
tasks, run them through the pool, report, and persist failures. -/
def downloadAllImages (outputDir : String) (fetch : String → FetchResult)
    (rowOf : String → Option Row) (urls : List String) (fs0 : FS) : RunReport :=
  let tasks := prepareTasks rowOf urls
  let rr := runTasks outputDir fetch tasks fs0
  let failedList := rr.1.filter (fun r => r.status == "failed")
  { results := rr.1
    summary := generateReport rr.1
    retryCsv := if failedList.isEmpty then none else some (saveFailedDownloads failedList)
    fs := rr.2 }

/-- Embedding of pandas dropna on one column: keep the non-null cells. -/
def dropna (cells : List (Option String)) : List (Option String) :=
  cells.filter (fun c => c.isSome)

/-- The URL list extracted by load_excel_data: non-null cells of the URL
column, as strings, in row order. -/
def extractUrls (cells : List (Option String)) : List String :=
  (dropna cells).map (fun c => c.getD "")

/-- Embedding of ExcelImageDownloader.load_excel_data. The table the
Excel engine would return is passed as data: column names paired with
cell lists. A path ending neither in .xlsx nor in .xls raises
ValueError (Unsupported file format); a missing URL column raises
ValueError (Column not found); otherwise the non-null URL cells are
returned in row order. -/
def loadExcelData (table : List (String × List (Option String)))
    (urlColumn path : String) : Except String (List String) :=
  if strEndsWith path ".xlsx" || strEndsWith path ".xls" then
    match table.find? (fun col => col.1 == urlColumn) with
    | none => .error ("Column " ++ urlColumn ++ " not found in Excel")
    | some col => .ok (extractUrls col.2)
  else
    .error "Unsupported file format. Use .xlsx or .xls"

end ExcelImageDownloader

namespace BulkImageConverter

/-- The supported_formats dictionary of BulkImageConverter, in insertion
order (Python dictionaries preserve insertion order). -/
def supportedFormats : List (String × String) :=
  [("png", "PNG"), ("jpg", "JPEG"), ("jpeg", "JPEG"), ("jfif", "JPEG"),
   ("jpe", "JPEG"), ("bmp", "BMP"), ("webp", "WEBP"), ("tiff", "TIFF"),
   ("tif", "TIFF"), ("gif", "GIF"), ("ico", "ICO"), ("ppm", "PPM"), ("pgm", "PGM")]

/-- The format_mapping dictionary of BulkImageConverter. -/
def formatMapping : List (String × String) :=
  [("png", "PNG"), ("jpg", "JPEG"), ("jpeg", "JPEG"), ("jfif", "JPEG"),
   ("jpe", "JPEG"), ("bmp", "BMP"), ("webp", "WEBP"), ("tiff", "TIFF"),
   ("tif", "TIFF"), ("gif", "GIF"), ("ico", "ICO")]

/-- Embedding of get_supported_extensions: the keys of supported_formats. -/
def getSupportedExtensions : List String := supportedFormats.map (fun p => p.1)

/-- Embedding of get_pillow_format: look the lower-cased name up in
format_mapping, defaulting to its upper-casing. -/
def getPillowFormat (fmt : String) : String :=
  let f := strLower fmt
  (((formatMapping.find? (fun p => p.1 == f)).map (fun p => p.2))).getD (strUpper f)

/-- Embedding of get_output_extension. -/
def getOutputExtension (fmt : String) : String :=
  let f := strLower fmt
  if f == "jpg" || f == "jpeg" || f == "jfif" || f == "jpe" then "jpg"
  else if f == "tif" || f == "tiff" then "tiff"
  else f

/-- Embedding of the enumeration loop of bulk_convert in the
non-recursive case, over a directory listing of file names: for each
supported extension in dictionary order, the glob for STAR.ext extends
the list with the names ending in that extension, then the glob for the
upper-cased pattern extends it with the names ending in the upper-cased
extension. The resulting work list is therefore grouped by extension,
each group in listing order. -/
def listImageFiles (listing : List String) : List String :=
  getSupportedExtensions.flatMap (fun ext =>
    listing.filter (fun f => strEndsWith f ("." ++ ext)) ++
    listing.filter (fun f => strEndsWith f (strUpper ("." ++ ext))))

/-- Per-item outcome of the conversion loop: the three counter branches. -/
inductive CStatus where
  | converted
  | skipped
  | failed
deriving DecidableEq

/-- The output file name bulk_convert computes: input stem plus the
output extension. -/
def outputName (fmt input : String) : String :=
  String.mk (stemChars input.data) ++ "." ++ getOutputExtension fmt

/-- The full output path of one input file. -/
def outputPath (outputFolder fmt input : String) : String :=
  outputFolder ++ "/" ++ outputName fmt input

/-- State observed after the conversion loop: the per-item statuses in
item order, the set of existing output paths, the number of files
written, and the number of codec invocations. -/
structure ConvState where
  statuses : List CStatus
  fs : List String
  writes : Nat
  calls : Nat
deriving DecidableEq

/-- Embedding of the conversion loop of bulk_convert. For each input
file in order: when the output path exists and overwrite was not
requested, count a skip without touching the codec; otherwise invoke the
codec (convert_image), which either writes the output and succeeds, or
fails having written nothing (convert_image catches every codec
exception and returns False). -/
def runConv (outputFolder fmt : String) (overwrite : Bool) (codec : String → Bool) :
    List String → List String → ConvState
  | [], fs => ⟨[], fs, 0, 0⟩
  | f :: rest, fs =>
    let out := outputPath outputFolder fmt f
    if fs.contains out && !overwrite then
      let r := runConv outputFolder fmt overwrite codec rest fs
      ⟨.skipped :: r.statuses, r.fs, r.writes, r.calls⟩
    else if codec f then
      let r := runConv outputFolder fmt overwrite codec rest (out :: fs)
      ⟨.converted :: r.statuses, r.fs, r.writes + 1, r.calls + 1⟩
    else
      let r := runConv outputFolder fmt overwrite codec rest fs
      ⟨.failed :: r.statuses, r.fs, r.writes, r.calls + 1⟩

/-- Embedding of BulkImageConverter.bulk_convert: reject an unsupported
output format, enumerate the image files of the input listing, give up
when none is found, otherwise run the conversion loop. -/
def bulkConvert (listing : List String) (outputFolder fmt : String)
    (overwrite : Bool) (codec : String → Bool) (fs : List String) : Option ConvState :=
  if !(getSupportedExtensions.contains (strLower fmt)) then none
  else
    let files := listImageFiles listing
    if files.isEmpty then none
    else some (runConv outputFolder fmt overwrite codec files fs)

/-- A first pipeline run without overwrite: the conversion loop on a work
list from a starting output state. -/
def firstRun (o fmt : String) (codec : String → Bool) (files fs0 : List String) : ConvState :=
  runConv o fmt false codec files fs0

/-- A second pipeline run without overwrite over the unchanged work list,
starting from the output state the first run left behind. -/
def secondRun (o fmt : String) (codec : String → Bool) (files fs0 : List String) : ConvState :=
  runConv o fmt false codec files (firstRun o fmt codec files fs0).fs

end BulkImageConverter

/-- Lexicographic order on character lists, the ordering named by the
specification for directory-sourced work items. -/
def lexLe : List Char → List Char → Bool
  | [], _ => true
  | _ :: _, [] => false
  | a :: as, b :: bs => if a < b then true else if b < a then false else lexLe as bs

/-- Whether a list of strings is sorted lexicographically. -/
def sortedLex : List String → Bool
  | [] => true
  | [_] => true
  | a :: b :: rest => lexLe a.data b.data && sortedLex (b :: rest)

namespace ExcelImageDownloader

/-- The outcome record carries the index of its work item in every branch
of download_image. -/
theorem downloadImage_fst_index (outputDir : String) (fetch : String → FetchResult) (fs : FS)
    (url fn : String) (idx : Nat) :
    ((downloadImage outputDir fetch fs url fn idx).1).index = idx := by
  simp only [downloadImage]
  split
  · rfl
  · split
    · rfl
    · split
      · split <;> rfl
      · rfl

/-- The linearised pool collects exactly one outcome per task, carrying
the task indices in order. -/
theorem runTasks_map_index (outputDir : String) (fetch : String → FetchResult)
    (ts : List Task) : ∀ fs : FS,
    ((runTasks outputDir fetch ts fs).1.map (fun r => r.index)) = ts.map (fun t => t.index) := by
  induction ts with
  | nil => intro fs; rfl
  | cons t rest ih =>
    intro fs
    simp only [runTasks, List.map_cons]
    rw [downloadImage_fst_index, ih]

/-- The prepared tasks carry the indices 0, 1, ... in enumeration order. -/
theorem prepareTasks_map_index (rowOf : String → Option Row) (urls : List String) :
    (prepareTasks rowOf urls).map (fun t => t.index) = List.range urls.length := by
  simp only [prepareTasks, List.map_map]
  have h : ((fun t : Task => t.index) ∘ fun p : Nat × String =>
      (⟨p.2, getFilename p.2 p.1 (rowOf p.2), p.1⟩ : Task)) = Prod.fst := rfl
  rw [h, List.enum_map_fst]

/-- A full run produces outcome records whose indices are exactly
0, ..., n-1 for n input URLs. -/
theorem downloadAll_results_map_index (outputDir : String) (fetch : String → FetchResult)
    (rowOf : String → Option Row) (urls : List String) (fs0 : FS) :
    (downloadAllImages outputDir fetch rowOf urls fs0).results.map (fun r => r.index) =
      List.range urls.length := by
  simp only [downloadAllImages]
  rw [runTasks_map_index, prepareTasks_map_index]

/-- A full run produces exactly as many outcome records as input URLs. -/
theorem downloadAll_results_length (outputDir : String) (fetch : String → FetchResult)
    (rowOf : String → Option Row) (urls : List String) (fs0 : FS) :
    (downloadAllImages outputDir fetch rowOf urls fs0).results.length = urls.length := by
  have h := congrArg List.length (downloadAll_results_map_index outputDir fetch rowOf urls fs0)
  simpa using h

end ExcelImageDownloader

namespace BulkImageConverter

/-- Boolean membership agrees with propositional membership on string lists. -/
theorem contains_iff_mem (l : List String) (x : String) : l.contains x = true ↔ x ∈ l := by
  simp [List.contains_iff_exists_mem_beq, beq_iff_eq, eq_comm]

/-- The conversion loop never removes an output file. -/
theorem runConv_fs_mono (o fmt : String) (ov : Bool) (codec : String → Bool)
    (files : List String) : ∀ (fs : List String) (x : String),
    x ∈ fs → x ∈ (runConv o fmt ov codec files fs).fs := by
  induction files with
  | nil => intro fs x hx; simpa [runConv] using hx
  | cons f rest ih =>
    intro fs x hx
    simp only [runConv]
    split
    · exact ih fs x hx
    · split
      · exact ih (outputPath o fmt f :: fs) x (List.mem_cons_of_mem _ hx)
      · exact ih fs x hx

/-- Every output file present after the conversion loop either was
present before it or is the output path of one of the processed inputs. -/
theorem runConv_fs_subset (o fmt : String) (ov : Bool) (codec : String → Bool)
    (files : List String) : ∀ (fs : List String) (x : String),
    x ∈ (runConv o fmt ov codec files fs).fs →
    x ∈ fs ∨ ∃ f ∈ files, x = outputPath o fmt f := by
  induction files with
  | nil => intro fs x hx; left; simpa [runConv] using hx
  | cons f rest ih =>
    intro fs x hx
    simp only [runConv] at hx
    split at hx
    · rcases ih fs x hx with h | ⟨g, hg, he⟩
      · exact Or.inl h
      · exact Or.inr ⟨g, List.mem_cons_of_mem _ hg, he⟩
    · split at hx
      · rcases ih _ x hx with h | ⟨g, hg, he⟩
        · rcases List.mem_cons.mp h with h | h
          · exact Or.inr ⟨f, List.mem_cons_self _ _, h⟩
          · exact Or.inl h
        · exact Or.inr ⟨g, List.mem_cons_of_mem _ hg, he⟩
      · rcases ih fs x hx with h | ⟨g, hg, he⟩
        · exact Or.inl h
        · exact Or.inr ⟨g, List.mem_cons_of_mem _ hg, he⟩

/-- After the conversion loop, every processed input either has its
output path on disk or its codec call fails. -/
theorem runConv_post (o fmt : String) (ov : Bool) (codec : String → Bool)
    (files : List String) : ∀ (fs : List String) (g : String), g ∈ files →
    outputPath o fmt g ∈ (runConv o fmt ov codec files fs).fs ∨ codec g = false := by
  induction files with
  | nil => intro fs g hg; cases hg
  | cons f rest ih =>
    intro fs g hg
    simp only [runConv]
    split
    · rcases List.mem_cons.mp hg with h | h
      · subst h
        rename_i hcond
        have hc : fs.contains (outputPath o fmt g) = true := by
          have := (Bool.and_eq_true _ _).mp hcond
          exact this.1
        exact Or.inl (runConv_fs_mono o fmt ov codec rest fs _ ((contains_iff_mem fs _).mp hc))
      · exact ih fs g h
    · split
      · rcases List.mem_cons.mp hg with h | h
        · subst h
          exact Or.inl (runConv_fs_mono o fmt ov codec rest _ _ (List.mem_cons_self _ _))
        · exact ih _ g h
      · rcases List.mem_cons.mp hg with h | h
        · subst h
          rename_i hcodec
          exact Or.inr (by simpa using hcodec)
        · exact ih fs g h

/-- A conversion run without overwrite in which every input already has
its output on disk or fails in the codec changes nothing: no writes, the
output state is unchanged, and every item is skipped or failed according
to the presence of its output path. -/
theorem runConv_stable (o fmt : String) (codec : String → Bool)
    (files : List String) : ∀ fs : List String,
    (∀ f ∈ files, outputPath o fmt f ∈ fs ∨ codec f = false) →
    (runConv o fmt false codec files fs).fs = fs ∧
    (runConv o fmt false codec files fs).writes = 0 ∧
    (runConv o fmt false codec files fs).statuses =
      files.map (fun f => if outputPath o fmt f ∈ fs then CStatus.skipped else CStatus.failed) := by
  induction files with
  | nil => intro fs _; exact ⟨rfl, rfl, rfl⟩
  | cons f rest ih =>
    intro fs hall
    have htl : ∀ g ∈ rest, outputPath o fmt g ∈ fs ∨ codec g = false :=
      fun g hg => hall g (List.mem_cons_of_mem _ hg)
    obtain ⟨ihfs, ihw, ihst⟩ := ih fs htl
    by_cases hf : outputPath o fmt f ∈ fs
    · have hc : (fs.contains (outputPath o fmt f) && !false) = true := by
        simp [contains_iff_mem, hf]
      simp only [runConv, hc, if_true, List.map_cons, if_pos hf]
      exact ⟨ihfs, ihw, by rw [ihst]⟩
    · have hcod : codec f = false := by
        rcases hall f (List.mem_cons_self _ _) with h | h
        · exact absurd h hf
        · exact h
      have hc : (fs.contains (outputPath o fmt f) && !false) = false := by
        simp [contains_iff_mem, hf]
      simp only [runConv, hc, hcod, Bool.false_eq_true, if_false, List.map_cons, if_neg hf]
      exact ⟨ihfs, ihw, by rw [ihst]⟩

/-- Counting skips in a skip-or-fail status list counts the inputs whose
output path is present. -/
theorem count_map_ite (p : String → Prop) [DecidablePred p] (files : List String) :
    (files.map (fun f => if p f then CStatus.skipped else CStatus.failed)).count CStatus.skipped =
      files.countP (fun f => decide (p f)) := by
  induction files with
  | nil => rfl
  | cons f rest ih =>
    by_cases hf : p f
    · simp [List.count_cons, List.countP_cons, hf, ih]
    · simp [List.count_cons, List.countP_cons, hf, ih]

/-- In a run without overwrite over pairwise distinct output paths, the
skipped and converted items together are exactly the inputs whose output
path exists when the run ends. -/
theorem runConv_firstrun_count (o fmt : String) (codec : String → Bool)
    (files : List String) : ∀ fs : List String,
    (files.map (outputPath o fmt)).Nodup →
    (runConv o fmt false codec files fs).statuses.count CStatus.skipped +
      (runConv o fmt false codec files fs).statuses.count CStatus.converted =
      files.countP (fun f => decide (outputPath o fmt f ∈ (runConv o fmt false codec files fs).fs)) := by
  induction files with
  | nil => intro fs _; rfl
  | cons f rest ih =>
    intro fs hnd
    have hndt : (rest.map (outputPath o fmt)).Nodup := (List.nodup_cons.mp hnd).2
    have hnm : outputPath o fmt f ∉ rest.map (outputPath o fmt) := (List.nodup_cons.mp hnd).1
    simp only [runConv]
    split
    · rename_i hcond
      have hcf : outputPath o fmt f ∈ fs :=
        (contains_iff_mem fs _).mp ((Bool.and_eq_true _ _).mp hcond).1
      have hmem : outputPath o fmt f ∈ (runConv o fmt false codec rest fs).fs :=
        runConv_fs_mono o fmt false codec rest fs _ hcf
      simp only [List.count_cons, List.countP_cons, hmem, decide_eq_true_eq]
      have := ih fs hndt
      simp only [List.count_cons] at this ⊢
      simp [this]
      omega
    · split
      · have hmem : outputPath o fmt f ∈
            (runConv o fmt false codec rest (outputPath o fmt f :: fs)).fs :=
          runConv_fs_mono o fmt false codec rest _ _ (List.mem_cons_self _ _)
        have := ih (outputPath o fmt f :: fs) hndt
        simp only [List.count_cons, List.countP_cons, hmem, decide_eq_true_eq]
        simp [this]
        omega
      · rename_i hcond hcodec
        have hcf : outputPath o fmt f ∉ fs := by
          intro hmem
          have : (fs.contains (outputPath o fmt f) && !false) = true := by
            simp [contains_iff_mem, hmem]
          exact absurd this (by simpa using hcond)
        have hnotin : outputPath o fmt f ∉ (runConv o fmt false codec rest fs).fs := by
          intro hmem
          rcases runConv_fs_subset o fmt false codec rest fs _ hmem with h | ⟨g, hg, he⟩
          · exact hcf h
          · exact hnm (he ▸ List.mem_map_of_mem (outputPath o fmt) hg)
        have := ih fs hndt
        simp only [List.count_cons, List.countP_cons]
        simp [this, hnotin]

end BulkImageConverter

open ExcelImageDownloader BulkImageConverter

/-- Claim C1: for every run over a valid input source, each WorkItem
produced by the Enumerator yields exactly one OutcomeRecord collected by
the Aggregator, so the number of OutcomeRecords equals the number of
WorkItems, no item lost and none duplicated, even when individual
workers fail: for every fetch oracle, row lookup, starting filesystem and
URL list, the run collects exactly one record per URL and the record
indices are exactly 0, ..., n-1 in order. -/
theorem c1_every_workitem_exactly_one_outcome
    (outputDir : String) (fetch : String → FetchResult) (rowOf : String → Option Row)
    (urls : List String) (fs0 : FS) :
    (downloadAllImages outputDir fetch rowOf urls fs0).results.length = urls.length ∧
    (downloadAllImages outputDir fetch rowOf urls fs0).results.map (fun r => r.index) =
      List.range urls.length :=
  ⟨downloadAll_results_length outputDir fetch rowOf urls fs0,
   downloadAll_results_map_index outputDir fetch rowOf urls fs0⟩

/-- Claim C2: a WorkItem whose target already exists when overwrite is
not requested yields a skipped OutcomeRecord without invoking the
external operation: the downloader returns the skipped record, leaves the
filesystem unchanged and performs zero fetches; the converter loop counts
a skip, leaves the outputs unchanged and performs no codec call. -/
theorem c2_existing_target_skipped_without_external_call :
    (∀ (outputDir : String) (fetch : String → FetchResult) (fs : FS) (url fn : String) (idx : Nat),
      fsExists fs (outputDir ++ "/" ++ fn) = true →
      downloadImage outputDir fetch fs url fn idx =
        (⟨idx, url, fn, "skipped", none⟩, fs, 0)) ∧
    (∀ (outputFolder fmt : String) (codec : String → Bool) (f : String) (rest fs : List String),
      fs.contains (outputPath outputFolder fmt f) = true →
      (runConv outputFolder fmt false codec (f :: rest) fs).statuses =
        CStatus.skipped :: (runConv outputFolder fmt false codec rest fs).statuses ∧
      (runConv outputFolder fmt false codec (f :: rest) fs).fs =
        (runConv outputFolder fmt false codec rest fs).fs ∧
      (runConv outputFolder fmt false codec (f :: rest) fs).calls =
        (runConv outputFolder fmt false codec rest fs).calls) := by
  constructor
  · intro outputDir fetch fs url fn idx h
    simp only [downloadImage, h]
    rfl
  · intro outputFolder fmt codec f rest fs h
    simp only [runConv, h]
    exact ⟨rfl, rfl, rfl⟩

/-- Witness for C2 at concrete inputs: a downloader item whose target
exists is skipped with zero fetches, and a converter item whose output
exists is skipped with no codec call. -/
theorem c2_existing_target_skipped_without_external_call_witness :
    fsExists [("out/a.jpg", [1])] ("out" ++ "/" ++ "a.jpg") = true ∧
    downloadImage "out" (fun _ => FetchResult.err "e") [("out/a.jpg", [1])] "u" "a.jpg" 0 =
      (⟨0, "u", "a.jpg", "skipped", none⟩, [("out/a.jpg", [1])], 0) ∧
    (["out/a.jpg"] : List String).contains (outputPath "out" "jpg" "a.png") = true ∧
    (runConv "out" "jpg" false (fun _ => true) ["a.png"] ["out/a.jpg"]).calls =
      (runConv "out" "jpg" false (fun _ => true) [] ["out/a.jpg"]).calls :=
  ⟨by decide,
   c2_existing_target_skipped_without_external_call.1 "out" (fun _ => FetchResult.err "e")
     [("out/a.jpg", [1])] "u" "a.jpg" 0 (by decide),
   by decide,
   (c2_existing_target_skipped_without_external_call.2 "out" "jpg" (fun _ => true)
     "a.png" [] ["out/a.jpg"] (by decide)).2.2⟩

/-- Counterexample to claim C3: the claim requires a non-empty diagnostic
error string on every caught error, but download_image records error as
the string of the raised exception, which can be empty. With a fetch that
raises an exception whose message is empty, the record is failed and its
diagnostic string has no characters. -/
theorem c3_empty_error_string_counterexample :
    (downloadImage "out" (fun _ => FetchResult.err "") [] "http://x" "a.jpg" 0).1 =
      ⟨0, "http://x", "a.jpg", "failed", some ""⟩ ∧
    ((downloadImage "out" (fun _ => FetchResult.err "") [] "http://x" "a.jpg" 0).1.error.getD "x").data =
      [] := by
  decide

/-- Claim C3 as amended: any error raised by the external operation is
caught inside the Executor and converted into a failed OutcomeRecord
whose error field is set (non-None) to the message of the raised
exception - which is empty exactly when that message is empty; the error
never propagates, never aborts sibling work items, and the run always
finishes and reports a summary covering every input. -/
theorem c3_errors_caught_and_isolated :
    (∀ (outputDir : String) (fetch : String → FetchResult) (fs : FS)
       (url fn : String) (idx : Nat) (msg : String),
      fsExists fs (outputDir ++ "/" ++ fn) = false → fetch url = .err msg →
      downloadImage outputDir fetch fs url fn idx =
        (⟨idx, url, fn, "failed", some msg⟩, fs, 1)) ∧
    (∀ (outputDir : String) (fetch : String → FetchResult) (rowOf : String → Option Row)
       (urls : List String) (fs0 : FS),
      (downloadAllImages outputDir fetch rowOf urls fs0).summary.total = urls.length) := by
  constructor
  · intro outputDir fetch fs url fn idx msg hex herr
    simp only [downloadImage, hex, herr]
    rfl
  · intro outputDir fetch rowOf urls fs0
    show (downloadAllImages outputDir fetch rowOf urls fs0).results.length = urls.length
    exact downloadAll_results_length outputDir fetch rowOf urls fs0

/-- Witness for C3 at a concrete input: a raised request error with
message boom is converted to a failed record carrying that message, and
the surrounding run still reports a total over every input. -/
theorem c3_errors_caught_and_isolated_witness :
    fsExists [] ("out" ++ "/" ++ "a.jpg") = false ∧
    (fun _ : String => FetchResult.err "boom") "u" = FetchResult.err "boom" ∧
    downloadImage "out" (fun _ => FetchResult.err "boom") [] "u" "a.jpg" 0 =
      (⟨0, "u", "a.jpg", "failed", some "boom"⟩, [], 1) ∧
    (downloadAllImages "out" (fun _ => FetchResult.err "boom") (fun _ => none) ["u"] []).summary.total = 1 :=
  ⟨by decide, rfl,
   c3_errors_caught_and_isolated.1 "out" (fun _ => FetchResult.err "boom") [] "u" "a.jpg" 0 "boom"
     (by decide) rfl,
   c3_errors_caught_and_isolated.2 "out" (fun _ => FetchResult.err "boom") (fun _ => none) ["u"] []⟩

/-- Counterexample to claim C4: the claim requires the fetch Executor to
verify a non-zero-size artifact before recording success, but
download_image performs no such verification: a response that is an image
with an empty body yields a zero-byte file at the target and a success
record, not the failed record the claim requires. -/
theorem c4_zero_byte_artifact_success_counterexample :
    (downloadImage "out" (fun _ => FetchResult.ok ⟨"image/png", [], none⟩) []
      "http://a.com/x.png" "x.png" 0).1.status = "success" ∧
    fsRead (downloadImage "out" (fun _ => FetchResult.ok ⟨"image/png", [], none⟩) []
      "http://a.com/x.png" "x.png" 0).2.1 "out/x.png" = some [] := by
  decide

/-- Claim C4 as amended: the downloader records success exactly when the
response is an image and the body stream completes, writing the received
bytes to the target with no verification of its size - a zero-byte
artifact still yields success; the converter counts an item as converted
exactly when the codec call completes, that is when the file was
written. -/
theorem c4_success_without_size_verification :
    (∀ (outputDir : String) (fetch : String → FetchResult) (fs : FS)
       (url fn : String) (idx : Nat) (resp : FetchResp),
      fsExists fs (outputDir ++ "/" ++ fn) = false → fetch url = .ok resp →
      strContainsSub resp.contentType "image" = true → resp.streamError = none →
      downloadImage outputDir fetch fs url fn idx =
        (⟨idx, url, fn, "success", none⟩,
         fsWrite fs (outputDir ++ "/" ++ fn) resp.chunks.flatten, 1)) ∧
    (∀ (outputFolder fmt : String) (codec : String → Bool) (f : String) (rest fs : List String),
      fs.contains (outputPath outputFolder fmt f) = false → codec f = true →
      (runConv outputFolder fmt false codec (f :: rest) fs).statuses =
        CStatus.converted ::
          (runConv outputFolder fmt false codec rest (outputPath outputFolder fmt f :: fs)).statuses ∧
      (runConv outputFolder fmt false codec (f :: rest) fs).writes =
        (runConv outputFolder fmt false codec rest (outputPath outputFolder fmt f :: fs)).writes + 1) := by
  constructor
  · intro outputDir fetch fs url fn idx resp hex hok hct hse
    simp only [downloadImage, hex, hok, hct, hse]
    rfl
  · intro outputFolder fmt codec f rest fs hex hcodec
    simp only [runConv, hex, hcodec]
    exact ⟨rfl, rfl⟩

/-- Witness for C4 at concrete inputs: a one-chunk image response is
written and recorded as success, and a succeeding codec call is counted
as converted with one write. -/
theorem c4_success_without_size_verification_witness :
    fsExists [] ("out" ++ "/" ++ "a.png") = false ∧
    strContainsSub "image/png" "image" = true ∧
    downloadImage "out" (fun _ => FetchResult.ok ⟨"image/png", [[5]], none⟩) [] "u" "a.png" 0 =
      (⟨0, "u", "a.png", "success", none⟩, fsWrite [] ("out" ++ "/" ++ "a.png") [5], 1) ∧
    (runConv "out" "png" false (fun _ => true) ["a.bmp"] []).statuses =
      CStatus.converted :: (runConv "out" "png" false (fun _ => true) [] [outputPath "out" "png" "a.bmp"]).statuses :=
  ⟨by decide, by decide,
   c4_success_without_size_verification.1 "out" (fun _ => FetchResult.ok ⟨"image/png", [[5]], none⟩)
     [] "u" "a.png" 0 ⟨"image/png", [[5]], none⟩ (by decide) rfl (by decide) rfl,
   (c4_success_without_size_verification.2 "out" "png" (fun _ => true) "a.bmp" [] []
     (by decide) rfl).1⟩

/-- Counterexample to claim C5: the claim equates the second-run skipped
count with the first-run success count for every input source, but an
item whose target already exists before the first run is skipped in both
runs: with one input whose output pre-exists, the second run skips one
item while the first run converted zero. -/
theorem c5_preexisting_target_counterexample :
    ¬ ((secondRun "out" "jpg" (fun _ => true) ["a.png"] ["out/a.jpg"]).statuses.count
         CStatus.skipped =
       (firstRun "out" "jpg" (fun _ => true) ["a.png"] ["out/a.jpg"]).statuses.count
         CStatus.converted) := by
  decide

/-- Claim C5 as amended: when the output paths of the work list are
pairwise distinct, running the conversion pipeline a second time without
overwrite over the unchanged work list and output state yields a
second-run skipped count equal to the first-run success count plus the
first-run skipped count, and the second run performs zero new filesystem
writes, leaving the output state exactly as the first run left it. -/
theorem c5_second_run_skips_prior_work (o fmt : String) (codec : String → Bool)
    (files fs0 : List String)
    (hnd : (files.map (outputPath o fmt)).Nodup) :
    (secondRun o fmt codec files fs0).statuses.count CStatus.skipped =
      (firstRun o fmt codec files fs0).statuses.count CStatus.converted +
      (firstRun o fmt codec files fs0).statuses.count CStatus.skipped ∧
    (secondRun o fmt codec files fs0).fs = (firstRun o fmt codec files fs0).fs ∧
    (secondRun o fmt codec files fs0).writes = 0 := by
  have hpost : ∀ f ∈ files,
      outputPath o fmt f ∈ (firstRun o fmt codec files fs0).fs ∨ codec f = false :=
    fun f hf => runConv_post o fmt false codec files fs0 f hf
  obtain ⟨hfs, hw, hst⟩ := runConv_stable o fmt codec files (firstRun o fmt codec files fs0).fs hpost
  refine ⟨?_, hfs, hw⟩
  show (runConv o fmt false codec files (firstRun o fmt codec files fs0).fs).statuses.count
    CStatus.skipped = _
  rw [hst, count_map_ite (fun f => outputPath o fmt f ∈ (firstRun o fmt codec files fs0).fs) files]
  have hcount := runConv_firstrun_count o fmt codec files fs0 hnd
  show files.countP (fun f => decide (outputPath o fmt f ∈ (firstRun o fmt codec files fs0).fs)) = _
  simp only [firstRun]
  simp only [firstRun] at hcount
  omega

/-- Witness for C5 at a concrete input: one convertible input from an
empty output state, distinct output paths; the second run skips exactly
the one item the first run converted, with zero writes. -/
theorem c5_second_run_skips_prior_work_witness :
    ((["a.png"] : List String).map (outputPath "out" "jpg")).Nodup ∧
    ((secondRun "out" "jpg" (fun _ => true) ["a.png"] []).statuses.count CStatus.skipped =
      (firstRun "out" "jpg" (fun _ => true) ["a.png"] []).statuses.count CStatus.converted +
      (firstRun "out" "jpg" (fun _ => true) ["a.png"] []).statuses.count CStatus.skipped ∧
    (secondRun "out" "jpg" (fun _ => true) ["a.png"] []).fs =
      (firstRun "out" "jpg" (fun _ => true) ["a.png"] []).fs ∧
    (secondRun "out" "jpg" (fun _ => true) ["a.png"] []).writes = 0) :=
  ⟨by decide, c5_second_run_skips_prior_work "out" "jpg" (fun _ => true) ["a.png"] [] (by decide)⟩

/-- Counterexample to claim C6: the retry list is persisted as a CSV
file named failed_downloads.csv, but the Enumerator load_excel_data
accepts only .xlsx and .xls paths, so re-enumerating from the retry list
raises ValueError instead of producing the failed WorkItems: the
round-trip the claim states is not possible. -/
theorem c6_retry_list_not_reloadable_counterexample :
    loadExcelData [("url", [some "http://a.com/x.jpg"])] "url" "failed_downloads.csv" =
      Except.error "Unsupported file format. Use .xlsx or .xls" := by
  rfl

/-- Claim C6 as amended: the failed OutcomeRecords are persisted to a
tabular retry list with columns index, source locator (url), target
locator (filename), status and error, containing exactly the failed
records in order - one row per failed record, whose url and filename
columns read back the failed locators exactly; however the persisted file
is a CSV, and the Enumerator accepts only .xlsx and .xls input, so the
retry list cannot be re-enumerated by this code. -/
theorem c6_retry_rows_exact_but_not_reloadable (failed : List Outcome) :
    (saveFailedDownloads failed).1 = csvHeader ∧
    (saveFailedDownloads failed).2.length = failed.length ∧
    csvColumn (saveFailedDownloads failed) "url" = failed.map (fun r => r.url) ∧
    csvColumn (saveFailedDownloads failed) "filename" = failed.map (fun r => r.filename) ∧
    (∀ (table : List (String × List (Option String))) (col : String),
      loadExcelData table col "failed_downloads.csv" =
        Except.error "Unsupported file format. Use .xlsx or .xls") := by
  refine ⟨rfl, by simp [saveFailedDownloads], ?_, ?_, ?_⟩
  · simp only [csvColumn, saveFailedDownloads]
    rw [show csvHeader.enum.find? (fun p => p.2 == "url") = some (1, "url") from rfl]
    show (List.map outcomeRow failed).map (fun row => row.getD 1 "") = _
    rw [List.map_map]
    rfl
  · simp only [csvColumn, saveFailedDownloads]
    rw [show csvHeader.enum.find? (fun p => p.2 == "filename") = some (2, "filename") from rfl]
    show (List.map outcomeRow failed).map (fun row => row.getD 2 "") = _
    rw [List.map_map]
    rfl
  · intro table col
    have h : (strEndsWith "failed_downloads.csv" ".xlsx" ||
        strEndsWith "failed_downloads.csv" ".xls") = false := by decide
    simp [loadExcelData, h]

/-- Counterexample to claim C7: two URLs with the same basename produce
two WorkItems with the same target filename, yet no ConfigurationError
is raised - download_all_images has no duplicate-target check - and both
items are dispatched: the run returns one record per item. -/
theorem c7_duplicate_targets_dispatched_counterexample :
    (prepareTasks (fun _ => none) ["http://a.com/x.jpg", "http://b.com/x.jpg"]).map
        (fun t => t.filename) = ["x.jpg", "x.jpg"] ∧
    ¬ ((prepareTasks (fun _ => none) ["http://a.com/x.jpg", "http://b.com/x.jpg"]).map
        (fun t => t.filename)).Nodup ∧
    (downloadAllImages "out" (fun _ => FetchResult.err "e") (fun _ => none)
        ["http://a.com/x.jpg", "http://b.com/x.jpg"] []).results.length = 2 := by
  decide

/-- Claim C7 as amended: the code performs no uniqueness check on target
locators and raises no ConfigurationError: even when the prepared tasks
carry duplicate target filenames, every item is dispatched exactly once
and the run produces one record per input in index order. -/
theorem c7_duplicates_dispatched_without_check
    (outputDir : String) (fetch : String → FetchResult) (rowOf : String → Option Row)
    (urls : List String) (fs0 : FS)
    (h : ¬ ((prepareTasks rowOf urls).map (fun t => t.filename)).Nodup) :
    (downloadAllImages outputDir fetch rowOf urls fs0).results.map (fun r => r.index) =
      List.range urls.length :=
  downloadAll_results_map_index outputDir fetch rowOf urls fs0

/-- Witness for C7 at a concrete input: two URLs sharing the basename
x.jpg give duplicate targets, and both are still dispatched. -/
theorem c7_duplicates_dispatched_without_check_witness :
    ¬ ((prepareTasks (fun _ => none) ["http://a.com/p/x.jpg", "http://b.com/q/x.jpg"]).map
        (fun t => t.filename)).Nodup ∧
    (downloadAllImages "o" (fun _ => FetchResult.err "e") (fun _ => none)
        ["http://a.com/p/x.jpg", "http://b.com/q/x.jpg"] []).results.map (fun r => r.index) =
      List.range 2 :=
  ⟨by decide,
   c7_duplicates_dispatched_without_check "o" (fun _ => FetchResult.err "e") (fun _ => none)
     ["http://a.com/p/x.jpg", "http://b.com/q/x.jpg"] [] (by decide)⟩

/-- Counterexample to claim C8: the claim requires that no partial
artifact is left when the external operation errors mid-transfer, but
download_image writes the received chunks before the stream error is
raised and the except handler does not remove the file: with a stream
that yields three bytes and then errors, the record is failed yet the
partially written target remains on disk. -/
theorem c8_partial_artifact_counterexample :
    (downloadImage "out"
      (fun _ => FetchResult.ok ⟨"image/jpeg", [[1, 2, 3]], some "ConnectionError"⟩)
      [] "http://a" "x.jpg" 0).1.status = "failed" ∧
    fsRead (downloadImage "out"
      (fun _ => FetchResult.ok ⟨"image/jpeg", [[1, 2, 3]], some "ConnectionError"⟩)
      [] "http://a" "x.jpg" 0).2.1 "out/x.jpg" = some [1, 2, 3] := by
  decide

/-- Claim C8 as amended: every Executor invocation performs at most one
file creation at the target and none on skip, on a raised request error,
or on a non-image response; when the response is an image the received
chunks are written to the target exactly once - and when the body stream
errors mid-transfer that partially written file remains on disk while
the record is failed. -/
theorem c8_at_most_one_write_partial_on_stream_error :
    (∀ (outputDir : String) (fetch : String → FetchResult) (fs : FS)
       (url fn : String) (idx : Nat),
      fsExists fs (outputDir ++ "/" ++ fn) = true →
      (downloadImage outputDir fetch fs url fn idx).2.1 = fs) ∧
    (∀ (outputDir : String) (fetch : String → FetchResult) (fs : FS)
       (url fn : String) (idx : Nat) (msg : String),
      fsExists fs (outputDir ++ "/" ++ fn) = false → fetch url = .err msg →
      (downloadImage outputDir fetch fs url fn idx).2.1 = fs) ∧
    (∀ (outputDir : String) (fetch : String → FetchResult) (fs : FS)
       (url fn : String) (idx : Nat) (resp : FetchResp),
      fsExists fs (outputDir ++ "/" ++ fn) = false → fetch url = .ok resp →
      strContainsSub resp.contentType "image" = false →
      (downloadImage outputDir fetch fs url fn idx).2.1 = fs) ∧
    (∀ (outputDir : String) (fetch : String → FetchResult) (fs : FS)
       (url fn : String) (idx : Nat) (resp : FetchResp),
      fsExists fs (outputDir ++ "/" ++ fn) = false → fetch url = .ok resp →
      strContainsSub resp.contentType "image" = true →
      (downloadImage outputDir fetch fs url fn idx).2.1 =
        fsWrite fs (outputDir ++ "/" ++ fn) resp.chunks.flatten ∧
      (resp.streamError.isSome = true →
        (downloadImage outputDir fetch fs url fn idx).1.status = "failed")) := by
  refine ⟨?_, ?_, ?_, ?_⟩
  · intro outputDir fetch fs url fn idx h
    simp only [downloadImage, h]
    rfl
  · intro outputDir fetch fs url fn idx msg hex herr
    simp only [downloadImage, hex, herr]
    rfl
  · intro outputDir fetch fs url fn idx resp hex hok hct
    simp only [downloadImage, hex, hok, hct]
    rfl
  · intro outputDir fetch fs url fn idx resp hex hok hct
    simp only [downloadImage, hex, hok, hct]
    constructor
    · cases hse : resp.streamError <;> simp [hse]
    · intro hsome
      cases hse : resp.streamError with
      | none => rw [hse] at hsome; cases hsome
      | some m => simp [hse]

/-- Witness for C8 at concrete inputs: all four cases instantiated - a
skip, a request error, a non-image response and an image stream that
errors after three bytes, the last leaving the partial file with a
failed record. -/
theorem c8_at_most_one_write_partial_on_stream_error_witness :
    (downloadImage "out" (fun _ => FetchResult.err "e") [("out/a.jpg", [7])] "u" "a.jpg" 0).2.1 =
      [("out/a.jpg", [7])] ∧
    (downloadImage "out" (fun _ => FetchResult.err "e") [] "u" "a.jpg" 0).2.1 = [] ∧
    (downloadImage "out" (fun _ => FetchResult.ok ⟨"text/html", [[1]], none⟩) [] "u" "a.jpg" 0).2.1 =
      [] ∧
    (downloadImage "out" (fun _ => FetchResult.ok ⟨"image/jpeg", [[1, 2, 3]], some "E"⟩) []
        "u" "a.jpg" 0).2.1 = fsWrite [] ("out" ++ "/" ++ "a.jpg") [1, 2, 3] ∧
    (downloadImage "out" (fun _ => FetchResult.ok ⟨"image/jpeg", [[1, 2, 3]], some "E"⟩) []
        "u" "a.jpg" 0).1.status = "failed" :=
  ⟨c8_at_most_one_write_partial_on_stream_error.1 "out" (fun _ => FetchResult.err "e")
     [("out/a.jpg", [7])] "u" "a.jpg" 0 (by decide),
   c8_at_most_one_write_partial_on_stream_error.2.1 "out" (fun _ => FetchResult.err "e")
     [] "u" "a.jpg" 0 "e" (by decide) rfl,
   c8_at_most_one_write_partial_on_stream_error.2.2.1 "out"
     (fun _ => FetchResult.ok ⟨"text/html", [[1]], none⟩) [] "u" "a.jpg" 0
     ⟨"text/html", [[1]], none⟩ (by decide) rfl (by decide),
   (c8_at_most_one_write_partial_on_stream_error.2.2.2 "out"
     (fun _ => FetchResult.ok ⟨"image/jpeg", [[1, 2, 3]], some "E"⟩) [] "u" "a.jpg" 0
     ⟨"image/jpeg", [[1, 2, 3]], some "E"⟩ (by decide) rfl (by decide)).1,
   (c8_at_most_one_write_partial_on_stream_error.2.2.2 "out"
     (fun _ => FetchResult.ok ⟨"image/jpeg", [[1, 2, 3]], some "E"⟩) [] "u" "a.jpg" 0
     ⟨"image/jpeg", [[1, 2, 3]], some "E"⟩ (by decide) rfl (by decide)).2 rfl⟩

/-- Counterexample to claim C9: directory-sourced items are not sorted
lexicographically by relative path: the converter enumerates the
supported extensions in dictionary order and globs each in turn, so a
listing holding a.jpg and b.png is enumerated as b.png, a.jpg - png is
globbed before jpg - which is not in lexicographic order. -/
theorem c9_directory_order_counterexample :
    listImageFiles ["a.jpg", "b.png"] = ["b.png", "a.jpg"] ∧
    lexLe ("a.jpg" : String).data ("b.png" : String).data = true ∧
    sortedLex (listImageFiles ["a.jpg", "b.png"]) = false := by
  decide

/-- Claim C9 as amended: table-sourced items appear in row order - the
URL extraction keeps exactly the non-null cells in their row order -
while directory-sourced items are drawn from the input listing but
grouped by extension in the supported-format order of the converter,
not sorted lexicographically: on the listing a.jpg, b.png the converter
enumerates b.png first. -/
theorem c9_row_order_kept_directory_grouped_by_extension :
    (∀ cells : List (Option String), extractUrls cells = cells.filterMap id) ∧
    (∀ (listing : List String) (f : String), f ∈ listImageFiles listing → f ∈ listing) ∧
    listImageFiles ["a.jpg", "b.png"] = ["b.png", "a.jpg"] := by
  refine ⟨?_, ?_, by decide⟩
  · intro cells
    induction cells with
    | nil => rfl
    | cons c rest ih =>
      cases c with
      | none => simpa [extractUrls, dropna] using ih
      | some v => simpa [extractUrls, dropna] using ih
  · intro listing f hf
    simp only [listImageFiles, List.mem_flatMap] at hf
    obtain ⟨ext, _, hmem⟩ := hf
    rcases List.mem_append.mp hmem with h | h
    · exact (List.mem_filter.mp h).1
    · exact (List.mem_filter.mp h).1

/-- Witness for C9 at a concrete input: b.png is enumerated by the
converter from the listing a.jpg, b.png, and it indeed belongs to that
listing. -/
theorem c9_row_order_kept_directory_grouped_by_extension_witness :
    ("b.png" : String) ∈ listImageFiles ["a.jpg", "b.png"] ∧
    ("b.png" : String) ∈ (["a.jpg", "b.png"] : List String) :=
  ⟨by decide,
   c9_row_order_kept_directory_grouped_by_extension.2.1 ["a.jpg", "b.png"] "b.png" (by decide)⟩

/-- Claim C10: the per-item executor download_image is total and returns
a well-formed OutcomeRecord for every URL, filename and index under any
fetch behaviour and any filesystem: the status is one of success, failed
and skipped; the error field is set exactly when the status is failed
(None on success and skip); and the record carries the given index, URL
and filename. -/
theorem c10_download_image_total_wellformed
    (outputDir : String) (fetch : String → FetchResult) (fs : FS)
    (url fn : String) (idx : Nat) :
    ((downloadImage outputDir fetch fs url fn idx).1.status = "success" ∨
     (downloadImage outputDir fetch fs url fn idx).1.status = "failed" ∨
     (downloadImage outputDir fetch fs url fn idx).1.status = "skipped") ∧
    ((downloadImage outputDir fetch fs url fn idx).1.error.isSome = true ↔
     (downloadImage outputDir fetch fs url fn idx).1.status = "failed") ∧
    (downloadImage outputDir fetch fs url fn idx).1.index = idx ∧
    (downloadImage outputDir fetch fs url fn idx).1.url = url ∧
    (downloadImage outputDir fetch fs url fn idx).1.filename = fn := by
  simp only [downloadImage]
  split
  · refine ⟨Or.inr (Or.inr rfl), ?_, rfl, rfl, rfl⟩
    simp
  · split
    · exact ⟨Or.inr (Or.inl rfl), by simp, rfl, rfl, rfl⟩
    · split
      · split
        · exact ⟨Or.inr (Or.inl rfl), by simp, rfl, rfl, rfl⟩
        · exact ⟨Or.inl rfl, by simp, rfl, rfl, rfl⟩
      · exact ⟨Or.inr (Or.inl rfl), by simp, rfl, rfl, rfl⟩
